import Mathlib

/-!
Shallow embedding of the extraction engine of `src/fetch_warnme.py`
(WarnMe incident-notification email parser).

Strings are modelled as `List Char`; each Python regular expression is
embedded as an explicit matcher whose backtracking behaviour is spelled
out at every choice point (greedy and lazy quantifiers, ordered
alternation, leftmost search).  Machine-level concerns do not arise:
the source manipulates text and small integers only.
-/

/-- Python whitespace class for ASCII text (`\s` and `str.strip`). -/
def isPySpace (c : Char) : Bool :=
  c = ' ' || c = '\t' || c = '\n' || c = '\r' || c = '\x0b' || c = '\x0c'

/-- Convenience: characters of a string literal. -/
def lc (s : String) : List Char := s.data

/-- `str.strip()` on ASCII text. -/
def stripList (l : List Char) : List Char :=
  ((l.dropWhile isPySpace).reverse.dropWhile isPySpace).reverse

/-- `str.rstrip('.')`: remove all trailing dots. -/
def rstripDot (l : List Char) : List Char :=
  (l.reverse.dropWhile (fun c => c = '.')).reverse

/-- `int()` on a string of decimal digits. -/
def digitsToNat (l : List Char) : Nat :=
  l.foldl (fun acc c => acc * 10 + (c.toNat - 48)) 0

/-- Decimal rendering of a natural number (Python `f"{n}"` for `n ≥ 0`). -/
def natDigits (n : Nat) : List Char := Nat.toDigits 10 n

/-- Python `f"{n:02d}"` for `n ≥ 0`. -/
def fmt2 (n : Nat) : List Char := if n < 10 then '0' :: natDigits n else natDigits n

/-- Python `f"{n:04d}"` for `n ≥ 0`. -/
def fmt4 (n : Nat) : List Char :=
  let d := natDigits n
  List.replicate (4 - d.length) '0' ++ d

/-- Match a literal pattern (given in lower case) case-insensitively at the
head of the input; return the remainder on success. -/
def dropCI : List Char → List Char → Option (List Char)
  | [], s => some s
  | _ :: _, [] => none
  | p :: ps, c :: cs => if c.toLower = p.toLower then dropCI ps cs else none

/-- Match a literal pattern case-sensitively at the head of the input. -/
def dropExact : List Char → List Char → Option (List Char)
  | [], s => some s
  | _ :: _, [] => none
  | p :: ps, c :: cs => if c = p then dropExact ps cs else none

/-- Regex `\s+` whose continuation starts with a non-whitespace literal:
the maximal whitespace run is forced, and at least one character is
required. -/
def ws1 : List Char → Option (List Char)
  | [] => none
  | c :: rest => if isPySpace c then some (rest.dropWhile isPySpace) else none

/-- Anchored match of `^(\d{1,2}):(\d{2})\s*(am|pm|AM|PM)?$` (case-sensitive,
as in the source, which compiles this pattern without `re.IGNORECASE`).
Returns `(hour value, minute digits, optional meridiem)`.

Backtracking notes: a digit run of length `≥ 3` can never place `:` after
one or two digits, so the run length must be 1 or 2; `\s*` is greedy and
its continuation `(am|pm|AM|PM)?$` can only succeed with the maximal run,
except that the alternatives are tried against the text right after the
run and `$` requires the end of the string. -/
def timeColonMatch (raw : List Char) : Option (Nat × List Char × Option (List Char)) :=
  let ds := raw.takeWhile Char.isDigit
  if ds.length = 1 ∨ ds.length = 2 then
    match raw.drop ds.length with
    | ':' :: r2 =>
      let ms := r2.take 2
      if ms.length = 2 ∧ ms.all Char.isDigit then
        let r3 := r2.drop 2
        let rest := r3.dropWhile isPySpace
        if rest = [] then some (digitsToNat ds, ms, none)
        else if rest = lc "am" ∨ rest = lc "pm" ∨ rest = lc "AM" ∨ rest = lc "PM" then
          some (digitsToNat ds, ms, some rest)
        else none
      else none
    | _ => none
  else none

/-- The 12-hour rendering used by both the no-meridiem colon branch and the
digits-only branch of `_convert_time_to_24_and_12`. -/
def twelveHour (hh : Nat) (mm : List Char) : List Char :=
  if hh = 0 then lc "12:" ++ mm ++ lc " am"
  else if hh = 12 then lc "12:" ++ mm ++ lc " pm"
  else if hh > 12 then natDigits (hh - 12) ++ ':' :: mm ++ lc " pm"
  else natDigits hh ++ ':' :: mm ++ lc " am"

/-- `_convert_time_to_24_and_12` (src/fetch_warnme.py lines 239-294), on
character lists.  Given a raw time token, return the pair
(24-hour rendering, 12-hour rendering), where each component is `none`
on failure. -/
def convertCore (raw_time : List Char) : Option (List Char) × Option (List Char) :=
  let raw := stripList raw_time
  if raw.contains ':' then
    match timeColonMatch raw with
    | none => (none, none)
    | some (hh, mm, some ampm) =>
      let ampmLower := ampm.map Char.toLower
      let hh24 :=
        if ampmLower = lc "pm" ∧ hh ≠ 12 then hh + 12
        else if ampmLower = lc "am" ∧ hh = 12 then 0
        else hh
      (some (fmt2 hh24 ++ ':' :: mm), some (natDigits hh ++ ':' :: mm ++ ' ' :: ampmLower))
    | some (hh, mm, none) =>
      if hh < 24 then (some (fmt2 hh ++ ':' :: mm), some (twelveHour hh mm))
      else (none, none)
  else
    if raw ≠ [] ∧ raw.all Char.isDigit ∧ 3 ≤ raw.length ∧ raw.length ≤ 4 then
      let rp := if raw.length = 3 then '0' :: raw else raw
      let hh := digitsToNat (rp.take 2)
      let mm := rp.drop 2
      if hh > 23 then (none, none)
      else (some (fmt2 hh ++ ':' :: mm), some (twelveHour hh mm))
    else (none, none)

/-- `_convert_time_to_24_and_12` on Lean strings; this is the function the
specification calls `normalize_time`. -/
def convert_time_to_24_and_12 (raw_time : String) : Option String × Option String :=
  ((convertCore raw_time.data).1.map String.mk, (convertCore raw_time.data).2.map String.mk)

/-- Leftmost search: run the matcher at every start position (left to
right), as `re.search` does. -/
def searchWith (m : List Char → Option α) : List Char → Option α
  | [] => m []
  | c :: rest =>
    match m (c :: rest) with
    | some a => some a
    | none => searchWith m rest

/-- Tail of the crime-subject pattern after the lazy group's terminating
dot: `\s+Some May Find the Content Upsetting\.` (case-insensitively; the
spaces inside the literal are exact single spaces). -/
def crimeTailOk (r : List Char) : Bool :=
  match ws1 r with
  | none => false
  | some r2 => (dropCI (lc "some may find the content upsetting.") r2).isSome

/-- Lazy group `(?P<crime>.+?)\.` followed by the fixed crime-pattern tail:
grow the capture one character at a time (never across a newline, since
`re.DOTALL` is not set); stop at the first dot whose continuation matches
the tail, requiring at least one captured character. -/
def crimeLazy (acc : List Char) : List Char → Option (List Char)
  | [] => none
  | c :: rest =>
    if c = '\n' then none
    else if c = '.' ∧ acc ≠ [] ∧ crimeTailOk rest then some acc.reverse
    else crimeLazy (c :: acc) rest

/-- Greedy `\s*` in front of the lazy crime group: try the maximal
whitespace run first, then shorter runs (`k` is the run length still
being tried). -/
def crimeWsTry (l : List Char) : Nat → Option (List Char)
  | 0 => crimeLazy [] l
  | k + 1 =>
    match crimeLazy [] (l.drop (k + 1)) with
    | some cap => some cap
    | none => crimeWsTry l k

/-- `CRIME_PATTERN` (src/fetch_warnme.py lines 182-184) matched at the head
of the input:
`UC Berkeley WarnMe(?:\s*[:\-])\s*(?P<crime>.+?)\.\s+Some May Find the Content Upsetting\.`
with `re.IGNORECASE`.  Returns the `crime` capture. -/
def crimeMatchAt (l : List Char) : Option (List Char) :=
  match dropCI (lc "uc berkeley warnme") l with
  | none => none
  | some r1 =>
    match r1.dropWhile isPySpace with
    | c :: r2 =>
      if c = ':' ∨ c = '-' then crimeWsTry r2 ((r2.takeWhile isPySpace).length)
      else none
    | [] => none

/-- `CRIME_PATTERN.search`: leftmost occurrence wins. -/
def crimeSearch (l : List Char) : Option (List Char) := searchWith crimeMatchAt l

/-- Word character for `\b` (`\w`, ASCII). -/
def isWordChar (c : Char) : Bool := c.isAlphanum || c = '_'

/-- Whether the character after a match keeps a `\b` boundary. -/
def boundaryAfter : List Char → Bool
  | [] => true
  | c :: _ => ¬ isWordChar c

/-- `re.sub(r"(?i)\bWORD\b", "", s)` for a fixed non-empty word: scan left
to right, removing each whole-word case-insensitive occurrence;
matching always happens against the original text, so after a removal the
scan resumes right after the removed region with its last character as
the `\b` context. -/
def subWordGo (w : List Char) : Nat → Option Char → List Char → List Char
  | 0, _, s => s
  | _ + 1, _, [] => []
  | fuel + 1, prev, c :: rest =>
    let boundaryBefore := match prev with | none => true | some p => ¬ isWordChar p
    match (if boundaryBefore then dropCI w (c :: rest) else none) with
    | some r =>
      if boundaryAfter r then
        subWordGo w fuel (some (((c :: rest).take w.length).getLastD c)) r
      else c :: subWordGo w fuel (some c) rest
    | none => c :: subWordGo w fuel (some c) rest

/-- The word `w` is non-empty in both uses, so every recursive step of
`subWordGo` consumes at least one character and fuel `s.length` is never
exhausted. -/
def subWordCI (w : List Char) (s : List Char) : List Char :=
  match w with
  | [] => s
  | _ :: _ => subWordGo w s.length none s

/-- `re.sub(r"\s+", " ", s)`: collapse each whitespace run to one space.
The flag records whether the previous character was whitespace. -/
def collapseWsGo (prevWs : Bool) : List Char → List Char
  | [] => []
  | c :: rest =>
    if isPySpace c then
      if prevWs then collapseWsGo true rest else ' ' :: collapseWsGo true rest
    else c :: collapseWsGo false rest

def collapseWs (l : List Char) : List Char := collapseWsGo false l

/-- `extract_crime_type` (src/fetch_warnme.py lines 186-202) on character
lists: reject an empty subject, search `CRIME_PATTERN`, then strip the
standalone words `Reported` and `Report`, collapse whitespace, and turn
an empty result into `None`. -/
def extractCrimeCore (subject : List Char) : Option (List Char) :=
  match subject with
  | [] => none
  | _ :: _ =>
    match crimeSearch subject with
    | none => none
    | some cap =>
      let c1 := stripList cap
      let c2 := stripList (subWordCI (lc "reported") c1)
      let c3 := stripList (subWordCI (lc "report") c2)
      let c4 := collapseWs c3
      match c4 with
      | [] => none
      | _ :: _ => some c4

/-- `extract_crime_type` on Lean strings; the specification calls it
`extract_category`. -/
def extract_crime_type (subject : String) : Option String :=
  (extractCrimeCore subject.data).map String.mk

/-- Line-break test for `str.splitlines` (Python's full break set). -/
def isLineBreakChar (c : Char) : Bool :=
  c = '\n' || c = '\r' || c = '\x0b' || c = '\x0c' || c = '\x1c' || c = '\x1d' ||
  c = '\x1e' || c = '\x85' || c = '\u2028' || c = '\u2029'

def goLines (acc : List Char) : List Char → List (List Char)
  | [] => [acc.reverse]
  | '\r' :: '\n' :: rest =>
    match rest with
    | [] => [acc.reverse]
    | _ :: _ => acc.reverse :: goLines [] rest
  | c :: rest =>
    if isLineBreakChar c then
      match rest with
      | [] => [acc.reverse]
      | _ :: _ => acc.reverse :: goLines [] rest
    else goLines (c :: acc) rest

/-- `str.splitlines()`: a trailing terminator does not create an empty final
line, and the empty string has no lines. -/
def splitLines : List Char → List (List Char)
  | [] => []
  | l => goLines [] l

/-- One labeled-line pattern `^LABEL[:\-]\s*(.+)$` (case-insensitive) from
`LOCATION_PATTERNS` (src/fetch_warnme.py lines 171-175), applied with
`re.match` to a stripped line.  `(.+)` is greedy over the rest of the line
(which holds no newline); if everything after the separator is whitespace,
the greedy `\s*` backs off one character so that `.+` captures the final
whitespace character. -/
def labelMatch (label : List Char) (l : List Char) : Option (List Char) :=
  match dropCI label l with
  | none => none
  | some (c :: r2) =>
    if c = ':' ∨ c = '-' then
      match r2.dropWhile isPySpace with
      | t :: ts => some (t :: ts)
      | [] =>
        match r2 with
        | [] => none
        | a :: rest => some [(a :: rest).getLastD a]
    else none
  | some [] => none

/-- Try the three labeled patterns on one stripped line, in source order. -/
def labeledLineCapture (line : List Char) : Option (List Char) :=
  let t := stripList line
  match labelMatch (lc "location") t with
  | some c => some c
  | none =>
    match labelMatch (lc "area") t with
    | some c => some c
    | none => labelMatch (lc "campus") t

/-- Scan the body line by line; the first line matching any labeled pattern
wins. -/
def findLabeled : List (List Char) → Option (List Char)
  | [] => none
  | ln :: rest =>
    match labeledLineCapture ln with
    | some c => some c
    | none => findLabeled rest

/-- Lazy group `(.+?)\.` with nothing after it: the capture is the shortest
non-empty newline-free run ending right before a dot. -/
def lazyDotGo (acc : List Char) : List Char → Option (List Char)
  | [] => none
  | c :: rest =>
    if c = '.' ∧ acc ≠ [] then some acc.reverse
    else if c = '\n' then none
    else lazyDotGo (c :: acc) rest

/-- Greedy `\s+` directly in front of `(.+?)\.`: longest whitespace run
first, backing off down to a single whitespace character. -/
def wsLazyDotTry (l : List Char) : Nat → Option (List Char)
  | 0 => none
  | k + 1 =>
    match lazyDotGo [] (l.drop (k + 1)) with
    | some cap => some cap
    | none => wsLazyDotTry l k

def wsLazyDot (l : List Char) : Option (List Char) :=
  match l with
  | [] => none
  | c :: _ =>
    if isPySpace c then wsLazyDotTry l ((l.takeWhile isPySpace).length)
    else none

/-- `occurred(\s+WORD)*\s+(.+?)\.` (case-insensitive) matched at the head:
the narrative location patterns of `extract_location`
(src/fetch_warnme.py lines 221-225).  Every `\s+` before a literal word is
forced to the maximal whitespace run. -/
def chainWords : List (List Char) → List Char → Option (List Char)
  | [], r => some r
  | w :: ws, r =>
    match ws1 r with
    | none => none
    | some r1 =>
      match dropCI w r1 with
      | none => none
      | some r2 => chainWords ws r2

def occurredMatchAt (mid : List (List Char)) (l : List Char) : Option (List Char) :=
  match dropCI (lc "occurred") l with
  | none => none
  | some r1 =>
    match chainWords mid r1 with
    | none => none
    | some r2 => wsLazyDot r2

/-- `extract_location` (src/fetch_warnme.py lines 205-230) on character
lists: labeled lines first, then the three narrative patterns in fixed
order, each searched over the whole body. -/
def extractLocationCore (body : List Char) : Option (List Char) :=
  match findLabeled (splitLines body) with
  | some cap => some (rstripDot (stripList cap))
  | none =>
    match searchWith (occurredMatchAt [lc "in", lc "the", lc "area", lc "of"]) body with
    | some cap => some (rstripDot (stripList cap))
    | none =>
      match searchWith (occurredMatchAt [lc "at"]) body with
      | some cap => some (rstripDot (stripList cap))
      | none =>
        match searchWith (occurredMatchAt [lc "near"]) body with
        | some cap => some (rstripDot (stripList cap))
        | none => none

def extract_location (body : String) : Option String :=
  (extractLocationCore body.data).map String.mk

/-- Greedy `\d{1,2}` whose continuation is a fixed non-digit literal: a run
of three or more digits can never succeed, so the whole digit run must
have length 1 or 2 and is consumed. -/
def digits12 (l : List Char) : Option (List Char × List Char) :=
  let run := l.takeWhile Char.isDigit
  if run.length = 1 ∨ run.length = 2 then some (run, l.drop run.length)
  else none

/-- The time alternation shared by both incident patterns:
`(?:\d{3,4}|\d{1,2}:\d{2}\s*(?:am|pm|AM|PM))` under `re.IGNORECASE`.
The first alternative is greedy (4 digits preferred over 3) and, since
everything after the time group is optional, never reconsidered; the
colon alternative requires a meridiem, matched case-insensitively.
Returns the captured token (original characters) and the remainder. -/
def timeTokenMatch (l : List Char) : Option (List Char × List Char) :=
  let run := l.takeWhile Char.isDigit
  if 4 ≤ run.length then some (l.take 4, l.drop 4)
  else if run.length = 3 then some (run, l.drop 3)
  else
    match digits12 l with
    | none => none
    | some (h, r1) =>
      match r1 with
      | ':' :: r2 =>
        let ms := r2.take 2
        if ms.length = 2 ∧ ms.all Char.isDigit then
          let r3 := r2.drop 2
          let ws := r3.takeWhile isPySpace
          match r3.drop ws.length with
          | a :: m :: rest =>
            if (a.toLower = 'a' ∨ a.toLower = 'p') ∧ m.toLower = 'm' then
              some (h ++ ':' :: ms ++ ws ++ [a, m], rest)
            else none
          | _ => none
        else none
      | _ => none

/-- Optional qualifier then time:
`(?:(?P<qualifier>approximately|about)\s+)?(?P<time>...)`, alternatives
in source order, falling back to the bare time. -/
def qualTime (l : List Char) : Option (List Char × List Char) :=
  match (do
    let r ← dropCI (lc "approximately") l
    let r2 ← ws1 r
    timeTokenMatch r2) with
  | some v => some v
  | none =>
    match (do
      let r ← dropCI (lc "about") l
      let r2 ← ws1 r
      timeTokenMatch r2) with
    | some v => some v
    | none => timeTokenMatch l

/-- Groups captured by `INCIDENT_PATTERN`. -/
structure IncidentMatch where
  date : List Char
  time : List Char
deriving DecidableEq

/-- `INCIDENT_PATTERN` (src/fetch_warnme.py lines 233-236) matched at the
head of the input:
`On\s+(?P<date>\d{1,2}/\d{1,2}/\d{2})(?P<comma>,?)\s+at\s+` then optional
qualifier and the time alternation, with `re.IGNORECASE`.  The trailing
`(?:\s*hours)?` constrains nothing. -/
def incidentMatchAt (l : List Char) : Option IncidentMatch := do
  let r1 ← dropCI (lc "on") l
  let r2 ← ws1 r1
  let (d1, r3) ← digits12 r2
  let r4 ← dropExact (lc "/") r3
  let (d2, r5) ← digits12 r4
  let r6 ← dropExact (lc "/") r5
  let yy := r6.take 2
  if yy.length = 2 ∧ yy.all Char.isDigit then
    let r7 := r6.drop 2
    let r8 := match r7 with | ',' :: t => t | _ => r7
    let r9 ← ws1 r8
    let r10 ← dropCI (lc "at") r9
    let r11 ← ws1 r10
    let (tcap, _) ← qualTime r11
    pure ⟨d1 ++ '/' :: d2 ++ '/' :: yy, tcap⟩
  else none

def incidentSearch (l : List Char) : Option IncidentMatch := searchWith incidentMatchAt l

/-- Groups captured by `MONTH_DAY_PATTERN`. -/
structure MonthDayMatch where
  month : List Char
  day : List Char
  year : Option (List Char)
  time : Option (List Char)
deriving DecidableEq

/-- The month alternation of `MONTH_DAY_PATTERN` in source order; each
abbreviated form `Xyz\.?` expands to the dot variant first (greedy `\.?`). -/
def monthAlts : List (List Char) :=
  [lc "january", lc "february", lc "march", lc "april", lc "may", lc "june",
   lc "july", lc "august", lc "september", lc "october", lc "november", lc "december",
   lc "jan.", lc "jan", lc "feb.", lc "feb", lc "mar.", lc "mar", lc "apr.", lc "apr",
   lc "jun.", lc "jun", lc "jul.", lc "jul", lc "aug.", lc "aug", lc "sep.", lc "sep",
   lc "sept.", lc "sept", lc "oct.", lc "oct", lc "nov.", lc "nov", lc "dec.", lc "dec"]

/-- Greedy `\d{1,2}` for the day group, whose continuation is entirely
optional and hence never forces backtracking: take up to two digits of a
non-empty digit run. -/
def dayDigits (l : List Char) : Option (List Char × List Char) :=
  let run := l.takeWhile Char.isDigit
  match run with
  | [] => none
  | _ :: _ => some (run.take 2, l.drop (min 2 run.length))

/-- Everything of `MONTH_DAY_PATTERN` after the day group:
`(?:st|nd|rd|th)?(?:,\s*(?P<year>\d{4}))?(?:,)?` then the optional
`at`-clause `(?:\s+at\s+(?:(?P<qual>approximately|about)\s+)?(?P<time>...)(?:\s*hours)?)?`.
All groups are optional and greedy; a failing optional group consumes
nothing. -/
def afterDay (monthCap day : List Char) (l : List Char) : Option MonthDayMatch :=
  let l1 := match l with
    | a :: b :: rest =>
      if (a.toLower = 's' ∧ b.toLower = 't') ∨ (a.toLower = 'n' ∧ b.toLower = 'd') ∨
         (a.toLower = 'r' ∧ b.toLower = 'd') ∨ (a.toLower = 't' ∧ b.toLower = 'h')
      then rest else a :: b :: rest
    | _ => l
  let yearAnd := match l1 with
    | ',' :: t =>
      let t2 := t.dropWhile isPySpace
      let y4 := t2.take 4
      if y4.length = 4 ∧ y4.all Char.isDigit then (some y4, t2.drop 4) else (none, l1)
    | _ => (none, l1)
  let l3 := match yearAnd.2 with | ',' :: t => t | _ => yearAnd.2
  let time := (do
    let r1 ← ws1 l3
    let r2 ← dropCI (lc "at") r1
    let r3 ← ws1 r2
    let (tcap, _) ← qualTime r3
    pure tcap)
  some ⟨monthCap, day, yearAnd.1, time⟩

/-- Try the month alternatives in order; on a month hit the rest of the
pattern (`\s+` day ...) is attempted, and its failure moves on to the
next alternative (so `Sep` failing before `Sept 5` recovers). -/
def tryMonths : List (List Char) → List Char → Option MonthDayMatch
  | [], _ => none
  | p :: ps, r2 =>
    match (do
      let r3 ← dropCI p r2
      let r4 ← ws1 r3
      let (day, r5) ← dayDigits r4
      afterDay (r2.take p.length) day r5) with
    | some m => some m
    | none => tryMonths ps r2

/-- `MONTH_DAY_PATTERN` (src/fetch_warnme.py lines 297-302) matched at the
head of the input. -/
def monthDayMatchAt (l : List Char) : Option MonthDayMatch := do
  let r1 ← dropCI (lc "on") l
  let r2 ← ws1 r1
  tryMonths monthAlts r2

def monthDaySearch (l : List Char) : Option MonthDayMatch := searchWith monthDayMatchAt l

/-- The `month_map` dictionary of `extract_incident_datetime`
(src/fetch_warnme.py line 318). -/
def month_map : List (List Char × Nat) :=
  [(lc "january", 1), (lc "jan", 1), (lc "february", 2), (lc "feb", 2),
   (lc "march", 3), (lc "mar", 3), (lc "april", 4), (lc "apr", 4), (lc "may", 5),
   (lc "june", 6), (lc "jun", 6), (lc "july", 7), (lc "jul", 7),
   (lc "august", 8), (lc "aug", 8), (lc "september", 9), (lc "sep", 9), (lc "sept", 9),
   (lc "october", 10), (lc "oct", 10), (lc "november", 11), (lc "nov", 11),
   (lc "december", 12), (lc "dec", 12)]

def isLeapYear (y : Nat) : Bool := y % 4 = 0 ∧ (y % 100 ≠ 0 ∨ y % 400 = 0)

def daysInMonth (m y : Nat) : Nat :=
  if m = 2 then (if isLeapYear y then 29 else 28)
  else if m = 4 ∨ m = 6 ∨ m = 9 ∨ m = 11 then 30 else 31

/-- Split a token on `/`. -/
def splitSlash : List Char → List (List Char)
  | [] => [[]]
  | '/' :: rest => [] :: splitSlash rest
  | c :: rest =>
    match splitSlash rest with
    | g :: gs => (c :: g) :: gs
    | [] => [[c]]

/-- `datetime.strptime(tok, "%m/%d/%y").date().isoformat()` wrapped in
`try`: months 1-12 and days valid for the (pivoted) year are accepted;
`%y` maps 00-68 to 2000-2068 and 69-99 to 1969-1999; any violation is the
`ValueError` the source swallows into `None`. -/
def parseMDY (tok : List Char) : Option (List Char) :=
  match splitSlash tok with
  | [ms, ds, ys] =>
    if ms ≠ [] ∧ ms.length ≤ 2 ∧ ms.all Char.isDigit ∧
       ds ≠ [] ∧ ds.length ≤ 2 ∧ ds.all Char.isDigit ∧
       ys.length = 2 ∧ ys.all Char.isDigit then
      let m := digitsToNat ms
      let d := digitsToNat ds
      let yy := digitsToNat ys
      let y := if yy ≤ 68 then 2000 + yy else 1900 + yy
      if 1 ≤ m ∧ m ≤ 12 ∧ 1 ≤ d ∧ d ≤ daysInMonth m y then
        some (fmt4 y ++ '-' :: fmt2 m ++ '-' :: fmt2 d)
      else none
    else none
  | _ => none

/-- Modelled from the spec: the source calls the external
`dateutil.parser.parse(email_iso).year` on the reference timestamp; the
model reads the leading four-digit year of an ISO-form timestamp such as
`2023-03-05T10:00:00` and treats any other shape as the parse failure the
source swallows. -/
def isoYear (s : List Char) : Option Nat :=
  let y4 := s.take 4
  match s.drop 4 with
  | '-' :: _ => if y4.length = 4 ∧ y4.all Char.isDigit then some (digitsToNat y4) else none
  | _ => none

/-- Year inference of `extract_incident_datetime` when the month-name
grammar carries no year: the reference timestamp's year when it parses,
else the current processing year (`datetime.now().year`), which the
embedding passes explicitly as `nowYear`. -/
def inferredYear (emailIso : Option (List Char)) (nowYear : Nat) : Nat :=
  match emailIso with
  | none => nowYear
  | some s =>
    match isoYear s with
    | some y => y
    | none => nowYear

/-- Result assembly for a Grammar A (numeric) match: the date goes through
`strptime` validation, the time through the normalizer; the two never
influence each other. -/
def grammarA_result (m : IncidentMatch) : Option (List Char) × Option (List Char) :=
  (parseMDY m.date, (convertCore m.time).1)

/-- Result assembly for a Grammar B (month-name) match: the month is looked
up after lowering and dot-stripping, the day and year are formatted
directly with no calendar validation, and the time (when present) goes
through the normalizer. -/
def grammarB_result (m : MonthDayMatch) (emailIso : Option (List Char)) (nowYear : Nat) :
    Option (List Char) × Option (List Char) :=
  let month_raw := rstripDot (m.month.map Char.toLower)
  let month := List.lookup month_raw month_map
  let day := digitsToNat m.day
  let year := match m.year with
    | some yt => digitsToNat yt
    | none => inferredYear emailIso nowYear
  let date := month.map (fun mo => fmt4 year ++ '-' :: fmt2 mo ++ '-' :: fmt2 day)
  let time := match m.time with
    | some rt => (convertCore rt).1
    | none => none
  (date, time)

/-- `extract_incident_datetime` (src/fetch_warnme.py lines 304-342) on
character lists: Grammar A is attempted first and Grammar B only when
Grammar A's pattern finds no match; exactly one grammar's result is
returned. -/
def extractIncidentCore (body : List Char) (emailIso : Option (List Char)) (nowYear : Nat) :
    Option (List Char) × Option (List Char) :=
  match incidentSearch body with
  | some m => grammarA_result m
  | none =>
    match monthDaySearch body with
    | none => (none, none)
    | some m2 => grammarB_result m2 emailIso nowYear

/-- `extract_incident_datetime` on Lean strings.  `nowYear` reifies the
`datetime.now().year` read performed by the source when no usable
reference timestamp is supplied. -/
def extract_incident_datetime (body : String) (email_iso : Option String) (nowYear : Nat) :
    Option String × Option String :=
  let r := extractIncidentCore body.data (email_iso.map String.data) nowYear
  (r.1.map String.mk, r.2.map String.mk)

/-- A node of the Gmail `payload` tree: a MIME type, the body data of the
part, and the child parts.  The transfer decoding the source performs with
the external `base64`/`quopri` libraries (urlsafe base64, UTF-8 with
replacement, and the quoted-printable heuristic re-decode) is modelled by
attaching its outcome to the part: `none` for a missing or empty `data`
field, `some none` for a blob whose decoding raises (the failure the
source swallows with `continue`), and `some (some text)` for a decoded
text. -/
inductive GPart : Type where
  | mk (mimeType : List Char) (data : Option (Option (List Char))) (parts : List GPart)

mutual
/-- `_collect_parts` (src/fetch_warnme.py lines 115-124): depth-first
flattening; a node with children contributes only its children's leaves,
a childless node contributes itself. -/
def collect_parts : GPart → List GPart
  | .mk m d ps =>
    match ps with
    | [] => [.mk m d []]
    | _ :: _ => collectList ps
def collectList : List GPart → List GPart
  | [] => []
  | p :: ps => collect_parts p ++ collectList ps
end

/-- The contribution of one collected part to the two chunk buckets of
`extract_body_text`: a decoded `text/plain` part is stripped into the
first bucket, a decoded `text/html` part goes unstripped into the second,
and everything else (missing data, failed decode, other MIME types) is
skipped. -/
def partChunks : GPart → List (List Char) × List (List Char)
  | .mk mime (some (some d)) _ =>
    if (lc "text/plain").isPrefixOf mime then ([stripList d], [])
    else if (lc "text/html").isPrefixOf mime then ([], [d])
    else ([], [])
  | _ => ([], [])

/-- The accumulation loop of `extract_body_text` over the collected parts,
preserving order. -/
def gatherChunks : List GPart → List (List Char) × List (List Char)
  | [] => ([], [])
  | p :: rest =>
    let r := gatherChunks rest
    ((partChunks p).1 ++ r.1, (partChunks p).2 ++ r.2)

/-- Lazy `.*?</TAG>` under `re.DOTALL` with the back-reference matched
case-insensitively: skip forward to the first closing tag and return the
remainder after it. -/
def lazyUntilClose (tag : List Char) : List Char → Option (List Char)
  | [] => none
  | c :: rest =>
    match dropCI ('<' :: '/' :: tag ++ ['>']) (c :: rest) with
    | some r => some r
    | none => lazyUntilClose tag rest

/-- One match of `<(script|style)[^>]*>.*?</\1>` (`re.DOTALL | re.IGNORECASE`)
at the head of the input; returns the remainder after the closing tag.
`[^>]*` is greedy and its continuation `>` leaves no backtracking slack. -/
def scriptStyleEnd (l : List Char) : Option (List Char) :=
  match l with
  | '<' :: r1 =>
    let tagAndRest : Option (List Char × List Char) :=
      match dropCI (lc "script") r1 with
      | some r => some (lc "script", r)
      | none =>
        match dropCI (lc "style") r1 with
        | some r => some (lc "style", r)
        | none => none
    match tagAndRest with
    | none => none
    | some (tag, r2) =>
      match r2.drop ((r2.takeWhile (fun c => c ≠ '>')).length) with
      | '>' :: r4 => lazyUntilClose tag r4
      | _ => none
  | _ => none

/-- `re.sub(r"<(script|style)[^>]*>.*?</\1>", "", s, flags=DOTALL|IGNORECASE)`:
replace each leftmost non-overlapping match with nothing.  Every match
consumes at least one character, so fuel equal to the input length is
never exhausted. -/
def removeSSGo : Nat → List Char → List Char
  | 0, l => l
  | _ + 1, [] => []
  | fuel + 1, c :: rest =>
    match scriptStyleEnd (c :: rest) with
    | some r => removeSSGo fuel r
    | none => c :: removeSSGo fuel rest

def removeScriptStyle (l : List Char) : List Char := removeSSGo l.length l

/-- `re.sub(r"<[^>]+>", " ", s)`: each tag of at least one non-`>`
character becomes a single space.  Every match consumes at least two
characters, so fuel equal to the input length is never exhausted. -/
def stripTagsGo : Nat → List Char → List Char
  | 0, l => l
  | _ + 1, [] => []
  | fuel + 1, '<' :: rest =>
    (match rest.takeWhile (fun c => c ≠ '>') with
     | [] => '<' :: stripTagsGo fuel rest
     | run =>
       match rest.drop run.length with
       | '>' :: r => ' ' :: stripTagsGo fuel r
       | _ => '<' :: stripTagsGo fuel rest)
  | fuel + 1, c :: rest => c :: stripTagsGo fuel rest

def stripTags (l : List Char) : List Char := stripTagsGo l.length l

/-- The part list `extract_body_text` works on:
`_collect_parts(full_message.get("payload", {}))`, where a missing payload
yields no parts. -/
def payloadParts : Option GPart → List GPart
  | none => []
  | some p => collect_parts p

/-- `extract_body_text` (src/fetch_warnme.py lines 127-168): join decoded
plain-text chunks if any; else sanitize the joined HTML chunks (drop
script/style blocks, strip tags, collapse whitespace, trim); else fall
back to the message snippet. -/
def extract_body_text (payload : Option GPart) (snippet : List Char) : List Char :=
  let parts := payloadParts payload
  let chunks := gatherChunks parts
  if chunks.1 ≠ [] then List.intercalate (lc "\n\n") chunks.1
  else if chunks.2 ≠ [] then
    stripList (collapseWs (stripTags (removeScriptStyle (List.intercalate (lc "\n\n") chunks.2))))
  else snippet

theorem convertCore_both_or_neither (l : List Char) :
    ((convertCore l).1 = none ↔ (convertCore l).2 = none) := by
  unfold convertCore
  dsimp only
  repeat' split
  all_goals first
  | rfl
  | simp

theorem collectList_append (a b : List GPart) :
    collectList (a ++ b) = collectList a ++ collectList b := by
  induction a with
  | nil => simp [collectList]
  | cons p ps ih => simp [collectList, ih]

theorem collect_parts_node (m : List Char) (d : Option (Option (List Char)))
    (ps : List GPart) (h : ps ≠ []) : collect_parts (.mk m d ps) = collectList ps := by
  cases ps with
  | nil => exact absurd rfl h
  | cons q qs => simp [collect_parts]

theorem gather_skip (A B : List GPart) (bad : GPart) (hb : partChunks bad = ([], [])) :
    gatherChunks (A ++ bad :: B) = gatherChunks (A ++ B) := by
  induction A with
  | nil => simp [gatherChunks, hb]
  | cons p ps ih => simp [gatherChunks, ih]

/-- Claim C1: `normalize_time` satisfies the specification's four test
vectors: "2130" gives ("21:30", "9:30 pm"), "9:30 pm" gives
("21:30", "9:30 pm"), "0007" gives ("00:07", "12:07 am"), and "2500"
gives (none, none). -/
theorem normalize_time_spec_vectors :
    convert_time_to_24_and_12 "2130" = (some "21:30", some "9:30 pm") ∧
    convert_time_to_24_and_12 "9:30 pm" = (some "21:30", some "9:30 pm") ∧
    convert_time_to_24_and_12 "0007" = (some "00:07", some "12:07 am") ∧
    convert_time_to_24_and_12 "2500" = (none, none) :=
  ⟨by decide, by decide, by decide, by decide⟩

/-- Claim C2: the specification says a colon-form token with an explicit
meridiem whose hour lies outside 1-12 fails to (none, none); the code's
meridiem branch performs no hour validation at all, so "13:30 pm" is
shifted to the out-of-range 24-hour string "25:30" instead of failing. -/
theorem normalize_time_meridiem_no_hour_check :
    convert_time_to_24_and_12 "13:30 pm" = (some "25:30", some "13:30 pm") := by decide

/-- Claim C3, counterexample: the output of `extract_incident_datetime` is
not a function of the body text and reference timestamp alone; when no
reference timestamp is supplied and the month-name phrase has no year,
the source reads `datetime.now().year` (the `nowYear` argument of the
embedding), and changing that clock value changes the output. -/
theorem extract_incident_datetime_reads_clock :
    ¬ (∀ (body : String) (iso : Option String) (y1 y2 : Nat),
        extract_incident_datetime body iso y1 = extract_incident_datetime body iso y2) :=
  fun h =>
    absurd (h "On March 2nd at 9:30 pm, a robbery occurred." none 2023 2024) (by decide)

/-- Claim C3, amended: every extractor is a pure function of its arguments
together with the current processing date, and whenever the supplied
reference timestamp parses, `extract_incident_datetime` is independent of
the processing date. -/
theorem extract_incident_datetime_clock_independent_of_parsed_ref
    (body s : String) (y n1 n2 : Nat) (h : isoYear s.data = some y) :
    extract_incident_datetime body (some s) n1 = extract_incident_datetime body (some s) n2 := by
  have hy : ∀ n, inferredYear (some s.data) n = y := fun n => by simp [inferredYear, h]
  simp only [extract_incident_datetime, extractIncidentCore, Option.map_some]
  cases hi : incidentSearch body.data with
  | some m => rfl
  | none =>
    cases hm : monthDaySearch body.data with
    | none => rfl
    | some m2 =>
      cases hy2 : m2.year with
      | some yt => simp [grammarB_result, hy2]
      | none => simp [grammarB_result, hy2, hy]

theorem extract_incident_datetime_clock_independent_witness :
    isoYear ("2023-03-05T10:00:00" : String).data = some 2023 ∧
    extract_incident_datetime "On March 2nd at 9:30 pm, a robbery occurred."
        (some "2023-03-05T10:00:00") 2001 =
      extract_incident_datetime "On March 2nd at 9:30 pm, a robbery occurred."
        (some "2023-03-05T10:00:00") 2002 :=
  ⟨by decide,
   extract_incident_datetime_clock_independent_of_parsed_ref _ _ 2023 2001 2002 (by decide)⟩

/-- Claim C4: on every subject where the crime pattern's capture is
"Robbery Reported" (as it is for the template subject), `extract_crime_type`
strips the standalone word "Reported", collapses whitespace, trims, and
returns "Robbery". -/
theorem extract_category_robbery (s : String)
    (h : crimeSearch s.data = some (lc "Robbery Reported")) :
    extract_crime_type s = some "Robbery" := by
  rcases hl : s.data with _ | ⟨c, rest⟩
  · rw [hl] at h
    exact absurd h (by decide)
  · rw [hl] at h
    have : extractCrimeCore (c :: rest) = some (lc "Robbery") := by
      simp only [extractCrimeCore, h]
      rfl
    simp [extract_crime_type, hl, this]
    rfl

theorem extract_category_robbery_witness :
    crimeSearch ("UC Berkeley WarnMe: Robbery Reported. Some May Find the Content Upsetting." : String).data =
      some (lc "Robbery Reported") ∧
    extract_crime_type "UC Berkeley WarnMe: Robbery Reported. Some May Find the Content Upsetting." =
      some "Robbery" :=
  ⟨by decide, extract_category_robbery _ (by decide)⟩

/-- Claim C5: labeled lines take priority over narrative clauses (whenever
the line scan finds a capture, that capture - trailing period stripped -
is the result); when no line matches, the three narrative patterns are
tried in their fixed order over the whole text, so an
"occurred in the area of" clause beats an earlier "occurred at" clause;
the two concrete specification examples hold, and nothing matching gives
none. -/
theorem extract_location_priority_and_examples :
    (∀ (body : String) (cap : List Char),
        findLabeled (splitLines body.data) = some cap →
        extract_location body = some (String.mk (rstripDot (stripList cap)))) ∧
    extract_location "A robbery occurred near Sproul Plaza. Details follow.\nLocation: Oxford Street & Hearst Ave" =
      some "Oxford Street & Hearst Ave" ∧
    extract_location "Yesterday an assault occurred near Memorial Glade. Stay alert." =
      some "Memorial Glade" ∧
    extract_location "The assault occurred at Dwinelle Hall. Another incident occurred in the area of West Circle." =
      some "West Circle" ∧
    extract_location "Nothing matches here" = none := by
  refine ⟨?_, by decide, by decide, by decide, by decide⟩
  intro body cap h
  simp [extract_location, extractLocationCore, h]

theorem extract_location_priority_witness :
    findLabeled (splitLines ("Location: Oxford Street & Hearst Ave" : String).data) =
      some (lc "Oxford Street & Hearst Ave") ∧
    extract_location "Location: Oxford Street & Hearst Ave" =
      some (String.mk (rstripDot (stripList (lc "Oxford Street & Hearst Ave")))) :=
  ⟨by decide, extract_location_priority_and_examples.1 _ _ (by decide)⟩

/-- Claim C6: on the specification's numeric-grammar body text the
extractor returns date 2024-03-14 and time 21:30, for every reference
timestamp and processing year. -/
theorem extract_incident_datetime_numeric_example (iso : Option String) (nowYear : Nat) :
    extract_incident_datetime "On 3/14/24, at approximately 2130 hours, a robbery occurred..."
      iso nowYear = (some "2024-03-14", some "21:30") := rfl

/-- Claim C7: with the month-name phrase "On March 2nd at 9:30 pm" carrying
no year, the year comes from the reference timestamp 2023-03-05T10:00:00
(giving 2023-03-02 for every processing year), and only without a
reference timestamp is the processing year used (2025 and 1999 shown). -/
theorem extract_incident_datetime_ref_year :
    (∀ nowYear : Nat,
      extract_incident_datetime "On March 2nd at 9:30 pm, a robbery occurred near Memorial Glade."
        (some "2023-03-05T10:00:00") nowYear = (some "2023-03-02", some "21:30")) ∧
    extract_incident_datetime "On March 2nd at 9:30 pm, a robbery occurred near Memorial Glade."
      none 2025 = (some "2025-03-02", some "21:30") ∧
    extract_incident_datetime "On March 2nd at 9:30 pm, a robbery occurred near Memorial Glade."
      none 1999 = (some "1999-03-02", some "21:30") := by
  refine ⟨fun nowYear => ?_, by decide, by decide⟩
  have hs1 : incidentSearch
      ("On March 2nd at 9:30 pm, a robbery occurred near Memorial Glade." : String).data = none := by
    decide
  have hs2 : monthDaySearch
      ("On March 2nd at 9:30 pm, a robbery occurred near Memorial Glade." : String).data =
      some ⟨lc "March", lc "2", none, some (lc "9:30 pm")⟩ := by decide
  have h1 : isoYear ("2023-03-05T10:00:00" : String).data = some 2023 := by decide
  have hy : inferredYear (Option.map String.data (some ("2023-03-05T10:00:00" : String))) nowYear = 2023 := by
    simp [inferredYear, h1]
  simp only [extract_incident_datetime, extractIncidentCore, hs1, hs2, grammarB_result, hy]
  decide

/-- Claim C8, counterexample: a matched Grammar B date that is not a valid
calendar date (February 31st, 2023) is nevertheless returned as
"2023-02-31" rather than none, because Grammar B performs no calendar
validation. -/
theorem grammarB_invalid_date_not_none :
    extract_incident_datetime "On February 31st, 2023, at approximately 2130 hours, a robbery occurred."
      none 2000 = (some "2023-02-31", some "21:30") ∧
    daysInMonth 2 2023 < 31 :=
  ⟨by decide, by decide⟩

/-- Claim C8, amended: Grammar A is attempted first and its result returned
whenever its pattern matches; Grammar B is consulted only when Grammar A
finds no match; the two are never merged.  For Grammar A, a date that
fails calendar validation yields a none date while the time is still
extracted from the same match, and a failed time does not suppress the
date; Grammar B formats its matched fields without calendar validation. -/
theorem incident_grammar_resolution :
    (∀ (body : List Char) (iso : Option (List Char)) (nowYear : Nat) (m : IncidentMatch),
        incidentSearch body = some m →
        extractIncidentCore body iso nowYear = grammarA_result m) ∧
    (∀ (body : List Char) (iso : Option (List Char)) (nowYear : Nat),
        incidentSearch body = none →
        extractIncidentCore body iso nowYear =
          (match monthDaySearch body with
           | none => (none, none)
           | some m2 => grammarB_result m2 iso nowYear)) ∧
    extract_incident_datetime "On 2/30/24, at approximately 2130 hours, a robbery occurred."
      none 2000 = (none, some "21:30") ∧
    extract_incident_datetime "On 3/14/24, at approximately 2500 hours, a robbery occurred."
      none 2000 = (some "2024-03-14", none) := by
  refine ⟨?_, ?_, by decide, by decide⟩
  · intro body iso nowYear m h
    simp [extractIncidentCore, h]
  · intro body iso nowYear h
    simp [extractIncidentCore, h]

theorem incident_grammar_resolution_witness :
    incidentSearch (lc "On 3/14/24, at 2130 hours") = some ⟨lc "3/14/24", lc "2130"⟩ ∧
    extractIncidentCore (lc "On 3/14/24, at 2130 hours") none 2000 =
      grammarA_result ⟨lc "3/14/24", lc "2130"⟩ :=
  ⟨by decide, incident_grammar_resolution.1 _ none 2000 _ (by decide)⟩

/-- Claim C9: `extract_body_text` follows the fallback chain - decoded
plain-text chunks joined with a blank line win; otherwise the joined HTML
chunks are sanitized (script/style blocks removed, tags stripped,
whitespace collapsed, trimmed); otherwise the snippet is returned - and a
leaf whose transfer decoding fails (or whose data is missing) is skipped
without affecting the other parts.  Three closed instances exercise the
chain. -/
theorem extract_body_text_fallback_chain :
    (∀ (p : Option GPart) (snippet : List Char),
        (gatherChunks (payloadParts p)).1 ≠ [] →
        extract_body_text p snippet =
          List.intercalate (lc "\n\n") (gatherChunks (payloadParts p)).1) ∧
    (∀ (p : Option GPart) (snippet : List Char),
        (gatherChunks (payloadParts p)).1 = [] → (gatherChunks (payloadParts p)).2 ≠ [] →
        extract_body_text p snippet =
          stripList (collapseWs (stripTags (removeScriptStyle
            (List.intercalate (lc "\n\n") (gatherChunks (payloadParts p)).2))))) ∧
    (∀ (p : Option GPart) (snippet : List Char),
        (gatherChunks (payloadParts p)).1 = [] → (gatherChunks (payloadParts p)).2 = [] →
        extract_body_text p snippet = snippet) ∧
    (∀ (m0 : List Char) (d0 : Option (Option (List Char))) (ps1 ps2 : List GPart)
        (mime : List Char) (bad : Option (Option (List Char))) (snippet : List Char),
        (bad = none ∨ bad = some none) → ps1 ++ ps2 ≠ [] →
        extract_body_text (some (.mk m0 d0 (ps1 ++ .mk mime bad [] :: ps2))) snippet =
          extract_body_text (some (.mk m0 d0 (ps1 ++ ps2))) snippet) ∧
    extract_body_text
      (some (.mk (lc "multipart/alternative") none
        [.mk (lc "text/plain") (some (some (lc "  Alpha line  "))) [],
         .mk (lc "text/html") (some (some (lc "<p>ignored</p>"))) []]))
      (lc "snip") = lc "Alpha line" ∧
    extract_body_text
      (some (.mk (lc "text/html")
        (some (some (lc "<html><body><script type=\"x\">evil()</script>Hello <b>world</b>!</body></html>"))) []))
      (lc "snip") = lc "Hello world !" ∧
    extract_body_text
      (some (.mk (lc "multipart/mixed") none
        [.mk (lc "text/plain") (some none) [],
         .mk (lc "image/png") (some (some (lc "xx"))) []]))
      (lc "the snippet") = lc "the snippet" := by
  refine ⟨?_, ?_, ?_, ?_, by decide, by decide, by decide⟩
  · intro p snippet h
    simp [extract_body_text, h]
  · intro p snippet h1 h2
    simp [extract_body_text, h1, h2]
  · intro p snippet h1 h2
    simp [extract_body_text, h1, h2]
  · intro m0 d0 ps1 ps2 mime bad snippet hbad hne
    have hb : partChunks (GPart.mk mime bad []) = ([], []) := by
      rcases hbad with h | h <;> subst h <;> rfl
    have e1 : payloadParts (some (GPart.mk m0 d0 (ps1 ++ GPart.mk mime bad [] :: ps2))) =
        collectList ps1 ++ GPart.mk mime bad [] :: collectList ps2 := by
      simp only [payloadParts]
      rw [collect_parts_node _ _ _ (by simp), collectList_append]
      simp [collectList, collect_parts]
    have e2 : payloadParts (some (GPart.mk m0 d0 (ps1 ++ ps2))) =
        collectList ps1 ++ collectList ps2 := by
      simp only [payloadParts]
      rw [collect_parts_node _ _ _ hne, collectList_append]
    simp only [extract_body_text, e1, e2, gather_skip _ _ _ hb]

theorem extract_body_text_fallback_chain_witness :
    (gatherChunks (payloadParts (some (GPart.mk (lc "text/plain") (some (some (lc "Hi"))) [])))).1 ≠ [] ∧
    extract_body_text (some (GPart.mk (lc "text/plain") (some (some (lc "Hi"))) [])) (lc "snip") =
      List.intercalate (lc "\n\n")
        (gatherChunks (payloadParts (some (GPart.mk (lc "text/plain") (some (some (lc "Hi"))) [])))).1 :=
  ⟨by decide, extract_body_text_fallback_chain.1 _ _ (by decide)⟩

/-- Claim C10: for every input token, `normalize_time` returns either both
components or neither: the 24-hour component is none exactly when the
12-hour component is. -/
theorem normalize_time_both_or_neither (raw : String) :
    ((convert_time_to_24_and_12 raw).1 = none ↔ (convert_time_to_24_and_12 raw).2 = none) := by
  have h := convertCore_both_or_neither raw.data
  simp only [convert_time_to_24_and_12, Option.map_eq_none']
  exact h
